import Mathlib

/-!
Shallow embedding of `src/index.js` (zankobot): a scheduled Fediverse
image-posting bot. The mutable process state is the pair of globals
`imageFiles` (the work queue) and `currentIndex` (the cursor). The
filesystem and the remote HTTP API are modelled as explicit environments:
a directory is a list of entry names (as returned by `readdir`, covering
files and subdirectories uniformly, since the code filters names only),
and each fallible I/O or API step is an environment field recording its
outcome. Exceptions that the JS code catches are folded into total
functions; the single spot where an exception can escape `postNextImage`
(indexing past the end of `imageFiles` makes `path.join` throw on
`undefined`) is modelled with `Except`.
-/

namespace Zankobot

/-- ASCII lowercasing of one character, the case folding performed by the
`/i` regex flag on the ASCII pattern letters of `/\.(jpg|jpeg|png|gif)$/i`
(line 44). -/
def asciiLowerChar (c : Char) : Char :=
  if 'A' ≤ c && c ≤ 'Z' then Char.ofNat (c.toNat + 32) else c

/-- ASCII lowercasing of a string (over its character list, which is the
same function as mapping over the string). -/
def asciiLower (s : String) : String :=
  ⟨s.data.map asciiLowerChar⟩

/-- String suffix test, over the character lists (the same relation as
`String.endsWith`, stated structurally). -/
def strEndsWith (s suffixStr : String) : Bool :=
  suffixStr.data.isSuffixOf s.data

/-- The filter of line 44: `/\.(jpg|jpeg|png|gif)$/i.test(file)`, i.e. the
entry name ends, case-insensitively, in one of the four dotted extensions. -/
def isImageFile (file : String) : Bool :=
  let l := asciiLower file
  strEndsWith l ".jpg" || strEndsWith l ".jpeg" ||
    strEndsWith l ".png" || strEndsWith l ".gif"

/-- Spec-side characterization (for the refinement claim C2): the name ends
in an extension from the allowed set, compared case-insensitively. -/
def matchesAllowedExt (name : String) : Prop :=
  ∃ e ∈ [".jpg", ".jpeg", ".png", ".gif"], strEndsWith (asciiLower name) e = true

/-- The two process-wide mutable globals of lines 17-18. -/
structure BotState where
  imageFiles : List String
  currentIndex : Nat
deriving DecidableEq, Repr

/-- The filesystem as seen by the bot: names in the source directory and in
the archive directory. -/
structure FsState where
  source : List String
  archive : List String
deriving DecidableEq, Repr

/-- Outcome of `fs.access`/`fs.mkdir` for one directory inside
`ensureDirectoryExists` (lines 25-36): access succeeds; access fails with
ENOENT and the recursive mkdir succeeds; access fails with ENOENT and the
mkdir throws; access fails with some other error (rethrown, line 33). -/
inductive EnsureResult where
  | accessOk
  | enoentMkdirOk
  | enoentMkdirFail (msg : String)
  | accessOtherError (msg : String)
deriving DecidableEq, Repr

/-- `ensureDirectoryExists` (lines 25-36): returns normally or throws. -/
def ensureDirectoryExists : EnsureResult → Except String Unit
  | .accessOk => .ok ()
  | .enoentMkdirOk => .ok ()
  | .enoentMkdirFail m => .error m
  | .accessOtherError m => .error m

/-- Environment for one call of `loadImageFiles` (lines 38-50): outcomes of
the two `ensureDirectoryExists` calls and of `fs.readdir`. -/
structure LoadEnv where
  ensureImages : EnsureResult
  ensurePosted : EnsureResult
  readdirOk : Bool
deriving DecidableEq, Repr

/-- `loadImageFiles` (lines 38-50). `listing` is what `readdir` would
return for the source directory. Every throw of the body is caught by the
catch of line 47, which only logs, so the function is total; the returned
Bool records whether that error path was taken. On success the queue is
replaced wholesale by the filtered listing; `currentIndex` is never
touched. -/
def loadImageFiles (env : LoadEnv) (listing : List String) (s : BotState) :
    BotState × Bool :=
  match ensureDirectoryExists env.ensureImages with
  | .error _ => (s, true)
  | .ok _ =>
    match ensureDirectoryExists env.ensurePosted with
    | .error _ => (s, true)
    | .ok _ =>
      if env.readdirOk then
        ({ s with imageFiles := listing.filter isImageFile }, false)
      else (s, true)

/-- All three fallible steps of `loadImageFiles` succeed. -/
def loadSucceeds (env : LoadEnv) : Bool :=
  (ensureDirectoryExists env.ensureImages).isOk &&
  (ensureDirectoryExists env.ensurePosted).isOk && env.readdirOk

/-- Shape of `mediaResponse.data` after a successful (non-throwing) upload
call (line 84 reads `mediaResponse.data.id`): `nullData` is a null or
undefined body, where the property access itself throws (caught by the
catch of line 99); `objNoId` is a body without an `id` property, where the
access yields `undefined` without throwing; `objWithId` carries the id. -/
inductive RespData where
  | nullData
  | objNoId
  | objWithId (id : String)
deriving DecidableEq, Repr

/-- Environment for one call of `postImageToFediverse` (lines 63-106):
whether `fs.readFile` succeeds, what the media-upload call yields (`none` =
axios threw: network error or non-2xx), whether the status-creation call
succeeds, and whether the `fs.rename` inside `movePostedImage` succeeds. -/
structure PublishEnv where
  readOk : Bool
  uploadResp : Option RespData
  statusOk : Bool
  moveOk : Bool
deriving DecidableEq, Repr

/-- Observable outcome of one `postImageToFediverse` call: which requests
were issued, the `media_ids` payload of the status request when issued
(`some none` = the id was `undefined`, serialized as null), whether the
archive move was attempted / succeeded, whether the move-error path logged,
and the resulting filesystem. -/
structure PublishResult where
  uploadIssued : Bool
  statusIssued : Bool
  statusMediaId : Option (Option String)
  moveAttempted : Bool
  moved : Bool
  loggedMoveError : Bool
  fs : FsState
deriving DecidableEq, Repr

/-- `movePostedImage` (lines 52-61): `fs.rename` moves the file from the
source to the archive directory under its base name, replacing any
existing entry; a throw is caught and logged (line 59), leaving the
filesystem unchanged. Returns (new fs, moved?, errorLogged?). -/
def movePostedImage (name : String) (moveOk : Bool) (fs : FsState) :
    FsState × Bool × Bool :=
  if moveOk then
    (⟨fs.source.erase name, List.insert name fs.archive⟩, true, false)
  else (fs, false, true)

/-- `postImageToFediverse` (lines 63-106). A read failure returns early
(line 72). A throw anywhere in the second try block — the upload call, the
`mediaResponse.data.id` access on a null body, or the status call — is
caught at line 99 and only logged. When the upload body merely lacks the
`id` property, no throw occurs: the status request is issued with the
undefined id. `movePostedImage` runs only after both requests succeeded. -/
def postImageToFediverse (name : String) (env : PublishEnv) (fs : FsState) :
    PublishResult :=
  if env.readOk then
    match env.uploadResp with
    | none =>
      ⟨true, false, none, false, false, false, fs⟩
    | some .nullData =>
      ⟨true, false, none, false, false, false, fs⟩
    | some .objNoId =>
      if env.statusOk then
        let m := movePostedImage name env.moveOk fs
        ⟨true, true, some none, true, m.2.1, m.2.2, m.1⟩
      else ⟨true, true, some none, false, false, false, fs⟩
    | some (.objWithId i) =>
      if env.statusOk then
        let m := movePostedImage name env.moveOk fs
        ⟨true, true, some (some i), true, m.2.1, m.2.2, m.1⟩
      else ⟨true, true, some (some i), false, false, false, fs⟩
  else ⟨false, false, none, false, false, false, fs⟩

/-- Environment for one `postNextImage` cycle. -/
structure CycleEnv where
  loadEnv : LoadEnv
  pubEnv : PublishEnv
deriving DecidableEq, Repr

/-- Observable events of one `postNextImage` cycle. -/
structure CycleEvents where
  scannerInvoked : Bool
  selected : Option String
  uploadIssued : Bool
  statusIssued : Bool
  loggedSkip : Bool
  loggedMoveError : Bool
  moved : Bool
deriving DecidableEq, Repr

/-- `postNextImage` (lines 108-132). If the queue is empty it reloads via
`loadImageFiles` (the only re-scan trigger) and skips the cycle when still
empty (lines 113-116). Otherwise it selects `imageFiles[currentIndex]`,
publishes it, then unconditionally removes the entry by index (line 124)
and wraps the cursor modulo the shrunken length, resetting to 0 on empty
(lines 126-130). The only uncaught throw is `path.join` on `undefined`
when `currentIndex` is out of bounds, modelled as `Except.error`. -/
def postNextImage (env : CycleEnv) (s : BotState) (fs : FsState) :
    Except String (BotState × FsState × CycleEvents) :=
  let s1 := if s.imageFiles.isEmpty then (loadImageFiles env.loadEnv fs.source s).1 else s
  if s1.imageFiles.isEmpty then
    .ok (s1, fs, ⟨s.imageFiles.isEmpty, none, false, false, true, false, false⟩)
  else
    match s1.imageFiles[s1.currentIndex]? with
    | none => .error "TypeError: path.join received undefined"
    | some name =>
      let r := postImageToFediverse name env.pubEnv fs
      let files := s1.imageFiles.eraseIdx s1.currentIndex
      let idx := if files.isEmpty then 0 else s1.currentIndex % files.length
      .ok (⟨files, idx⟩, r.fs,
        ⟨s.imageFiles.isEmpty, some name, r.uploadIssued, r.statusIssued, false,
          r.loggedMoveError, r.moved⟩)

/-- `n` consecutive scheduler ticks (line 144) against a fixed environment
and filesystem view, stopping at the first uncaught throw. -/
def runCycles (env : CycleEnv) (fs : FsState) : Nat → BotState → Except String BotState
  | 0, s => .ok s
  | n + 1, s =>
    match postNextImage env s fs with
    | .error e => .error e
    | .ok (s', _, _) => runCycles env fs n s'

/-- States of the two globals reachable by the program: the initial state
(lines 17-18), a startup `loadImageFiles` call (line 138, always made with
the queue empty), and any completed `postNextImage` cycle against any
filesystem and environment. -/
inductive Reachable : BotState → Prop where
  | init : Reachable ⟨[], 0⟩
  | load (env : LoadEnv) (listing : List String) (s : BotState) :
      Reachable s → s.imageFiles = [] →
      Reachable (loadImageFiles env listing s).1
  | step (env : CycleEnv) (fs : FsState) (s s' : BotState) (fs' : FsState)
      (ev : CycleEvents) : Reachable s →
      postNextImage env s fs = .ok (s', fs', ev) → Reachable s'

/-- The cursor invariant of §3 of the spec: the queue is empty with the
cursor at 0, or the cursor is a valid index into the queue. -/
def CursorInv (s : BotState) : Prop :=
  (s.imageFiles = [] ∧ s.currentIndex = 0) ∨ s.currentIndex < s.imageFiles.length

theorem isImageFile_iff (name : String) :
    isImageFile name = true ↔ matchesAllowedExt name := by
  unfold isImageFile matchesAllowedExt
  simp only [Bool.or_eq_true]
  constructor
  · rintro (((h | h) | h) | h)
    · exact ⟨".jpg", by simp, h⟩
    · exact ⟨".jpeg", by simp, h⟩
    · exact ⟨".png", by simp, h⟩
    · exact ⟨".gif", by simp, h⟩
  · rintro ⟨e, he, h⟩
    fin_cases he
    · exact Or.inl (Or.inl (Or.inl h))
    · exact Or.inl (Or.inl (Or.inr h))
    · exact Or.inl (Or.inr h)
    · exact Or.inr h

theorem loadImageFiles_fst (env : LoadEnv) (listing : List String) (s : BotState) :
    (loadImageFiles env listing s).1 = s ∨
    (loadImageFiles env listing s).1 = ⟨listing.filter isImageFile, s.currentIndex⟩ := by
  obtain ⟨fi, ci⟩ := s
  cases h1 : ensureDirectoryExists env.ensureImages with
  | error e => simp [loadImageFiles, h1]
  | ok u =>
    cases h2 : ensureDirectoryExists env.ensurePosted with
    | error e => simp [loadImageFiles, h1, h2]
    | ok u =>
      by_cases h3 : env.readdirOk = true <;> simp [loadImageFiles, h1, h2, h3]

theorem loadImageFiles_currentIndex (env : LoadEnv) (listing : List String)
    (s : BotState) :
    ((loadImageFiles env listing s).1).currentIndex = s.currentIndex := by
  rcases loadImageFiles_fst env listing s with h | h <;> rw [h]

theorem cursorInv_mk (files : List String) (ci : Nat) :
    CursorInv ⟨files, if files.isEmpty then 0 else ci % files.length⟩ := by
  cases hf : files.isEmpty with
  | true => exact Or.inl ⟨List.isEmpty_iff.mp hf, by simp [hf]⟩
  | false =>
    refine Or.inr ?_
    simp only [CursorInv, hf, Bool.false_eq_true, if_false]
    refine Nat.mod_lt _ (List.length_pos.mpr ?_)
    intro hnil
    rw [hnil] at hf
    simp at hf

theorem postNextImage_ok_inv (env : CycleEnv) (s : BotState) (fs : FsState)
    (s' : BotState) (fs' : FsState) (ev : CycleEvents) (hinv : CursorInv s)
    (h : postNextImage env s fs = .ok (s', fs', ev)) : CursorInv s' := by
  simp only [postNextImage] at h
  by_cases hs : s.imageFiles.isEmpty = true
  · rw [if_pos hs] at h
    have hidx : s.currentIndex = 0 := by
      rcases hinv with ⟨_, h0⟩ | hlt
      · exact h0
      · rw [List.isEmpty_iff.mp hs] at hlt
        exact absurd hlt (by simp)
    by_cases hl :
        ((loadImageFiles env.loadEnv fs.source s).1).imageFiles.isEmpty = true
    · rw [if_pos hl] at h
      simp only [Except.ok.injEq, Prod.mk.injEq] at h
      obtain ⟨h1, -, -⟩ := h
      subst h1
      exact Or.inl ⟨List.isEmpty_iff.mp hl,
        (loadImageFiles_currentIndex env.loadEnv fs.source s).trans hidx⟩
    · rw [if_neg hl] at h
      split at h
      · exact absurd h (by simp)
      · simp only [Except.ok.injEq, Prod.mk.injEq] at h
        obtain ⟨h1, -, -⟩ := h
        subst h1
        exact cursorInv_mk _ _
  · rw [if_neg hs] at h
    rw [if_neg hs] at h
    split at h
    · exact absurd h (by simp)
    · simp only [Except.ok.injEq, Prod.mk.injEq] at h
      obtain ⟨h1, -, -⟩ := h
      subst h1
      exact cursorInv_mk _ _

/-- Every reachable state of the two globals satisfies the cursor
invariant. -/
theorem reachable_inv (s : BotState) (hr : Reachable s) : CursorInv s := by
  induction hr with
  | init => exact Or.inl ⟨rfl, rfl⟩
  | load env listing s hr he ih =>
    have hidx : s.currentIndex = 0 := by
      rcases ih with ⟨_, h0⟩ | hlt
      · exact h0
      · rw [he] at hlt
        simp at hlt
    rcases loadImageFiles_fst env listing s with h | h <;> rw [h]
    · exact Or.inl ⟨he, hidx⟩
    · by_cases hf : listing.filter isImageFile = []
      · exact Or.inl ⟨hf, hidx⟩
      · exact Or.inr (by simp [hidx, List.length_pos.mpr hf])
  | step env fs s s' fs' ev hr hstep ih =>
    exact postNextImage_ok_inv env s fs s' fs' ev ih hstep

/-- Every entry of a reachable work queue passed the image-extension
filter. -/
theorem reachable_all_image (s : BotState) (hr : Reachable s) :
    ∀ nm ∈ s.imageFiles, isImageFile nm = true := by
  induction hr with
  | init => intro nm hnm; simp at hnm
  | load env listing s hr he ih =>
    rcases loadImageFiles_fst env listing s with h | h <;> rw [h]
    · exact ih
    · intro nm hnm
      exact (List.mem_filter.mp hnm).2
  | step env fs s s' fs' ev hr hstep ih =>
    have key : ∀ t : BotState, (∀ nm ∈ t.imageFiles, isImageFile nm = true) →
        ∀ nm ∈ (t.imageFiles.eraseIdx t.currentIndex), isImageFile nm = true := by
      intro t ht nm hnm
      exact ht nm ((List.eraseIdx_sublist t.imageFiles t.currentIndex).mem hnm)
    have hload : ∀ nm ∈ ((loadImageFiles env.loadEnv fs.source s).1).imageFiles,
        isImageFile nm = true := by
      rcases loadImageFiles_fst env.loadEnv fs.source s with h | h <;> rw [h]
      · exact ih
      · intro nm hnm
        exact (List.mem_filter.mp hnm).2
    simp only [postNextImage] at hstep
    by_cases hs : s.imageFiles.isEmpty = true
    · rw [if_pos hs] at hstep
      by_cases hl :
          ((loadImageFiles env.loadEnv fs.source s).1).imageFiles.isEmpty = true
      · rw [if_pos hl] at hstep
        simp only [Except.ok.injEq, Prod.mk.injEq] at hstep
        obtain ⟨h1, -, -⟩ := hstep
        subst h1
        exact hload
      · rw [if_neg hl] at hstep
        split at hstep
        · exact absurd hstep (by simp)
        · simp only [Except.ok.injEq, Prod.mk.injEq] at hstep
          obtain ⟨h1, -, -⟩ := hstep
          subst h1
          exact key _ hload
    · rw [if_neg hs] at hstep
      rw [if_neg hs] at hstep
      split at hstep
      · exact absurd hstep (by simp)
      · simp only [Except.ok.injEq, Prod.mk.injEq] at hstep
        obtain ⟨h1, -, -⟩ := hstep
        subst h1
        exact key _ ih

theorem postNextImage_skip (env : CycleEnv) (s : BotState) (fs : FsState)
    (hs : s.imageFiles = [])
    (hl : ((loadImageFiles env.loadEnv fs.source s).1).imageFiles = []) :
    postNextImage env s fs =
      .ok ((loadImageFiles env.loadEnv fs.source s).1, fs,
        ⟨true, none, false, false, true, false, false⟩) := by
  have hs' : s.imageFiles.isEmpty = true := by simp [hs]
  have hl' :
      ((loadImageFiles env.loadEnv fs.source s).1).imageFiles.isEmpty = true := by
    simp [hl]
  simp only [postNextImage]
  rw [if_pos hs', if_pos hl', hs']

theorem postNextImage_select (env : CycleEnv) (s : BotState) (fs : FsState)
    (name : String) (hne : s.imageFiles ≠ [])
    (hget : s.imageFiles[s.currentIndex]? = some name) :
    postNextImage env s fs =
      .ok (⟨s.imageFiles.eraseIdx s.currentIndex,
            if (s.imageFiles.eraseIdx s.currentIndex).isEmpty then 0
            else s.currentIndex % (s.imageFiles.eraseIdx s.currentIndex).length⟩,
        (postImageToFediverse name env.pubEnv fs).fs,
        ⟨false, some name, (postImageToFediverse name env.pubEnv fs).uploadIssued,
          (postImageToFediverse name env.pubEnv fs).statusIssued, false,
          (postImageToFediverse name env.pubEnv fs).loggedMoveError,
          (postImageToFediverse name env.pubEnv fs).moved⟩) := by
  have hs : s.imageFiles.isEmpty = false := by
    simp [List.isEmpty_iff, hne]
  simp only [postNextImage]
  rw [if_neg (by simp [hs]), if_neg (by simp [hs]), hs, hget]

theorem publish_move_failure (name : String) (env : PublishEnv) (fs : FsState)
    (hread : env.readOk = true) (d : RespData) (hd : d ≠ RespData.nullData)
    (hup : env.uploadResp = some d) (hst : env.statusOk = true)
    (hmv : env.moveOk = false) :
    (postImageToFediverse name env fs).loggedMoveError = true ∧
    (postImageToFediverse name env fs).moved = false ∧
    (postImageToFediverse name env fs).moveAttempted = true ∧
    (postImageToFediverse name env fs).fs = fs := by
  obtain ⟨ro, ur, so, mo⟩ := env
  simp only [PublishEnv.readOk] at hread
  simp only [PublishEnv.statusOk] at hst
  simp only [PublishEnv.moveOk] at hmv
  simp only [PublishEnv.uploadResp] at hup
  subst hread
  subst hst
  subst hmv
  subst hup
  cases d with
  | nullData => exact absurd rfl hd
  | objNoId => simp [postImageToFediverse, movePostedImage]
  | objWithId i => simp [postImageToFediverse, movePostedImage]

/-- Claim C2: the candidate list produced by a scan contains exactly those
entries of the directory listing whose name ends in an extension from
\x7bjpg, jpeg, png, gif\x7d compared case-insensitively, and excludes all
other entries (entries are names as returned by `readdir`, so files of
other types and subdirectories are filtered purely by name). -/
theorem scan_keeps_exactly_allowed_extensions (files : List String) (name : String) :
    name ∈ files.filter isImageFile ↔ name ∈ files ∧ matchesAllowedExt name := by
  rw [List.mem_filter, isImageFile_iff]

/-- Claim C3: after any sequence of publish cycles (and startup loads),
either the work queue is empty and the cursor is 0, or the cursor is in
the range [0, queue.length). -/
theorem cursor_invariant_reachable (s : BotState) (hr : Reachable s) :
    (s.imageFiles = [] ∧ s.currentIndex = 0) ∨
      s.currentIndex < s.imageFiles.length :=
  reachable_inv s hr

theorem cursor_invariant_reachable_witness :
    (([] : List String) = [] ∧ 0 = 0) ∨ 0 < ([] : List String).length :=
  cursor_invariant_reachable ⟨[], 0⟩ Reachable.init

/-- Claim C1: a publish cycle that starts with a non-empty work queue
selects exactly the filename at the cursor position, and after the publish
attempt that entry is removed from the queue by index, whatever the
publish outcome (the environment is universally quantified). -/
theorem cycle_selects_cursor_entry_and_removes_it (env : CycleEnv)
    (s : BotState) (fs : FsState) (hr : Reachable s)
    (hne : s.imageFiles ≠ []) :
    ∃ s' fs' ev, postNextImage env s fs = .ok (s', fs', ev) ∧
      ev.selected = s.imageFiles[s.currentIndex]? ∧
      (∃ nm, ev.selected = some nm) ∧
      s'.imageFiles = s.imageFiles.eraseIdx s.currentIndex := by
  have hidx : s.currentIndex < s.imageFiles.length := by
    rcases reachable_inv s hr with ⟨h1, -⟩ | h2
    · exact absurd h1 hne
    · exact h2
  have hget := List.getElem?_eq_getElem hidx
  exact ⟨_, _, _, postNextImage_select env s fs _ hne hget, by rw [hget],
    ⟨_, rfl⟩, rfl⟩

/-- Claim C7: the scanner runs on a cycle iff the work queue is empty at
its start; on an empty source directory a cycle from the empty state
selects nothing, removes nothing, issues no API call, never throws, and
logs a skip — and so does any number of repeated cycles. The source
directory may be empty or contain only non-image entries: the hypothesis
is that its listing has no image files. -/
theorem empty_queue_cycle_skips_and_never_throws (env : CycleEnv)
    (fs : FsState) (hfs : fs.source.filter isImageFile = []) :
    (∀ (s : BotState) (fs2 : FsState) (s' : BotState) (fs' : FsState)
        (ev : CycleEvents), postNextImage env s fs2 = .ok (s', fs', ev) →
        ev.scannerInvoked = s.imageFiles.isEmpty) ∧
    postNextImage env ⟨[], 0⟩ fs =
      .ok (⟨[], 0⟩, fs, ⟨true, none, false, false, true, false, false⟩) ∧
    ∀ n, runCycles env fs n ⟨[], 0⟩ = .ok ⟨[], 0⟩ := by
  have h1 : (loadImageFiles env.loadEnv fs.source ⟨[], 0⟩).1 = ⟨[], 0⟩ := by
    rcases loadImageFiles_fst env.loadEnv fs.source ⟨[], 0⟩ with h | h
    · exact h
    · rw [h, hfs]
  have hskip : postNextImage env ⟨[], 0⟩ fs =
      .ok (⟨[], 0⟩, fs, ⟨true, none, false, false, true, false, false⟩) := by
    have h2 := postNextImage_skip env ⟨[], 0⟩ fs rfl (by rw [h1])
    rw [h1] at h2
    exact h2
  refine ⟨?_, hskip, ?_⟩
  · intro s fs2 s' fs' ev h
    simp only [postNextImage] at h
    by_cases hs : s.imageFiles.isEmpty = true
    · rw [if_pos hs] at h
      by_cases hl :
          ((loadImageFiles env.loadEnv fs2.source s).1).imageFiles.isEmpty = true
      · rw [if_pos hl] at h
        simp only [Except.ok.injEq, Prod.mk.injEq] at h
        obtain ⟨-, -, hev⟩ := h
        rw [← hev]
      · rw [if_neg hl] at h
        split at h
        · exact absurd h (by simp)
        · simp only [Except.ok.injEq, Prod.mk.injEq] at h
          obtain ⟨-, -, hev⟩ := h
          rw [← hev]
    · rw [if_neg hs] at h
      rw [if_neg hs] at h
      split at h
      · exact absurd h (by simp)
      · simp only [Except.ok.injEq, Prod.mk.injEq] at h
        obtain ⟨-, -, hev⟩ := h
        rw [← hev]
  · intro n
    induction n with
    | zero => rfl
    | succ n ih =>
      simp only [runCycles, hskip]
      exact ih

/-- Claim C9: a scanner load performed with the work queue empty (as every
load in the program is) replaces the queue wholesale with the freshly
filtered listing and leaves the cursor equal to 0. -/
theorem scan_on_empty_replaces_queue_and_cursor_zero (env : LoadEnv)
    (listing : List String) (s : BotState) (hr : Reachable s)
    (he : s.imageFiles = []) (hok : loadSucceeds env = true) :
    (loadImageFiles env listing s).1 = ⟨listing.filter isImageFile, 0⟩ := by
  have h0 : s.currentIndex = 0 := by
    rcases reachable_inv s hr with ⟨-, h⟩ | h
    · exact h
    · rw [he] at h
      exact absurd h (by simp)
  cases h1 : ensureDirectoryExists env.ensureImages with
  | error e => simp [loadSucceeds, h1, Except.isOk, Except.toBool] at hok
  | ok u =>
    cases h2 : ensureDirectoryExists env.ensurePosted with
    | error e => simp [loadSucceeds, h1, h2, Except.isOk, Except.toBool] at hok
    | ok v =>
      have h3 : env.readdirOk = true := by
        simpa [loadSucceeds, h1, h2, Except.isOk, Except.toBool] using hok
      simp [loadImageFiles, h1, h2, h3, h0]

/-- Claim C10: if any filesystem step of the scanner load fails (directory
check failing other than with ENOENT, directory creation failing, or the
listing failing), the error is caught and only logged — the load returns
normally with the queue and cursor exactly as before. -/
theorem load_error_preserves_queue_and_cursor (env : LoadEnv)
    (listing : List String) (s : BotState) (h : loadSucceeds env = false) :
    loadImageFiles env listing s = (s, true) := by
  cases h1 : ensureDirectoryExists env.ensureImages with
  | error e => simp [loadImageFiles, h1]
  | ok u =>
    cases h2 : ensureDirectoryExists env.ensurePosted with
    | error e => simp [loadImageFiles, h1, h2]
    | ok v =>
      have h3 : env.readdirOk = false := by
        simpa [loadSucceeds, h1, h2, Except.isOk, Except.toBool] using h
      simp [loadImageFiles, h1, h2, h3]

/-- Claim C6: if reading the file content fails, the publish attempt ends
immediately: no upload request, no status request, no move, and an
unchanged filesystem. -/
theorem read_failure_aborts_attempt (name : String) (env : PublishEnv)
    (fs : FsState) (h : env.readOk = false) :
    postImageToFediverse name env fs =
      ⟨false, false, none, false, false, false, fs⟩ := by
  simp [postImageToFediverse, h]

/-- Claim C4: when the archiver's rename can succeed, the file is handed to
the archiver exactly when both the media-upload call and the status
creation call succeeded, and in that case it ends up in the archive
directory under the same base filename and is no longer present in the
source directory. -/
theorem archive_iff_both_api_calls_succeed (name : String) (env : PublishEnv)
    (fs : FsState) (hmv : env.moveOk = true) (hnd : fs.source.Nodup) :
    ((postImageToFediverse name env fs).moveAttempted = true ↔
      (postImageToFediverse name env fs).statusIssued = true ∧
        env.statusOk = true) ∧
    ((postImageToFediverse name env fs).moveAttempted = true →
      (postImageToFediverse name env fs).moved = true ∧
      name ∈ (postImageToFediverse name env fs).fs.archive ∧
      name ∉ (postImageToFediverse name env fs).fs.source) := by
  obtain ⟨ro, ur, so, mo⟩ := env
  simp only [PublishEnv.moveOk] at hmv
  subst hmv
  cases ro <;> cases so <;> rcases ur with - | (- | - | i) <;>
      simp [postImageToFediverse, movePostedImage, List.mem_insert_iff] <;>
    exact hnd.not_mem_erase

/-- Claim C5, counterexample: an upload response that merely lacks the
media identifier does not fail the publish at that step — the status
request is still issued (with the absent id serialized as null) and, the
status call and move succeeding, the file is even archived. -/
theorem missing_media_id_cex :
    (postImageToFediverse "a.jpg" ⟨true, some .objNoId, true, true⟩
        ⟨["a.jpg"], []⟩).statusIssued = true ∧
    (postImageToFediverse "a.jpg" ⟨true, some .objNoId, true, true⟩
        ⟨["a.jpg"], []⟩).statusMediaId = some none ∧
    (postImageToFediverse "a.jpg" ⟨true, some .objNoId, true, true⟩
        ⟨["a.jpg"], []⟩).moveAttempted = true := by
  decide

/-- Claim C5, amended: only a null/undefined upload body aborts before the
status call (the id property access throws and is caught); a body that is
an object merely lacking the id is not detected — the status request is
issued with the undefined identifier and archiving follows that call's
outcome. -/
theorem missing_media_id_proceeds (name : String) (env : PublishEnv)
    (fs : FsState) (hread : env.readOk = true) :
    (env.uploadResp = some .nullData →
      (postImageToFediverse name env fs).statusIssued = false ∧
      (postImageToFediverse name env fs).moveAttempted = false ∧
      (postImageToFediverse name env fs).fs = fs) ∧
    (env.uploadResp = some .objNoId →
      (postImageToFediverse name env fs).statusIssued = true ∧
      (postImageToFediverse name env fs).statusMediaId = some none ∧
      ((postImageToFediverse name env fs).moveAttempted = true ↔
        env.statusOk = true)) := by
  obtain ⟨ro, ur, so, mo⟩ := env
  simp only [PublishEnv.readOk] at hread
  subst hread
  constructor
  · rintro rfl
    simp [postImageToFediverse]
  · rintro rfl
    cases so <;> simp [postImageToFediverse, movePostedImage]

/-- Claim C8: when both API calls succeed but the archive rename fails,
the failure is logged, nothing is moved (the filesystem comes back
unchanged, so the file is still in the source directory), the queue entry
is removed for the cycle anyway, and the selected name still passes the
image filter, so a future rescan listing it makes it selectable again. -/
theorem move_failure_keeps_file_and_consumes_entry (env : CycleEnv)
    (s : BotState) (fs : FsState) (hr : Reachable s)
    (hne : s.imageFiles ≠ []) (hread : env.pubEnv.readOk = true)
    (d : RespData) (hd : d ≠ RespData.nullData)
    (hup : env.pubEnv.uploadResp = some d)
    (hst : env.pubEnv.statusOk = true) (hmv : env.pubEnv.moveOk = false) :
    ∃ s' ev, postNextImage env s fs = .ok (s', fs, ev) ∧
      ev.loggedMoveError = true ∧ ev.moved = false ∧
      s'.imageFiles = s.imageFiles.eraseIdx s.currentIndex ∧
      ∀ nm, ev.selected = some nm →
        isImageFile nm = true ∧ nm ∈ s.imageFiles := by
  have hidx : s.currentIndex < s.imageFiles.length := by
    rcases reachable_inv s hr with ⟨h1, -⟩ | h2
    · exact absurd h1 hne
    · exact h2
  have hget := List.getElem?_eq_getElem hidx
  obtain ⟨hlog, hmoved, -, hfs⟩ :=
    publish_move_failure (s.imageFiles[s.currentIndex]) env.pubEnv fs hread d
      hd hup hst hmv
  have hsel := postNextImage_select env s fs (s.imageFiles[s.currentIndex])
    hne hget
  rw [hfs] at hsel
  refine ⟨_, _, hsel, hlog, hmoved, rfl, ?_⟩
  intro nm hnm
  have h2 : nm = s.imageFiles[s.currentIndex] := by
    have h3 : some (s.imageFiles[s.currentIndex]) = some nm := hnm
    exact (Option.some.injEq _ _ ▸ h3).symm
  rw [h2]
  exact ⟨reachable_all_image s hr _ (List.getElem_mem hidx),
    List.getElem_mem hidx⟩

theorem reachable_singleton_jpg : Reachable ⟨["a.jpg"], 0⟩ := by
  have h := Reachable.load ⟨.accessOk, .accessOk, true⟩ ["a.jpg"] ⟨[], 0⟩
    Reachable.init rfl
  have he : (loadImageFiles ⟨.accessOk, .accessOk, true⟩ ["a.jpg"]
      ⟨[], 0⟩).1 = ⟨["a.jpg"], 0⟩ := by decide
  rw [he] at h
  exact h

theorem cycle_selects_cursor_entry_and_removes_it_witness :
    ∃ s' fs' ev,
      postNextImage ⟨⟨.accessOk, .accessOk, true⟩,
          ⟨true, some (.objWithId "42"), true, true⟩⟩
        ⟨["a.jpg"], 0⟩ ⟨["a.jpg"], []⟩ = .ok (s', fs', ev) ∧
      ev.selected = ["a.jpg"][0]? ∧ (∃ nm, ev.selected = some nm) ∧
      s'.imageFiles = ["a.jpg"].eraseIdx 0 :=
  cycle_selects_cursor_entry_and_removes_it _ _ _ reachable_singleton_jpg
    (by decide)

theorem empty_queue_cycle_skips_and_never_throws_witness :
    runCycles ⟨⟨.accessOk, .accessOk, true⟩,
        ⟨true, some (.objWithId "42"), true, true⟩⟩
      ⟨["notes.txt"], []⟩ 5 ⟨[], 0⟩ = .ok ⟨[], 0⟩ :=
  (empty_queue_cycle_skips_and_never_throws _ _ (by decide)).2.2 5

theorem scan_on_empty_replaces_queue_and_cursor_zero_witness :
    (loadImageFiles ⟨.accessOk, .enoentMkdirOk, true⟩
      ["a.JPG", "b.txt", "sub"] ⟨[], 0⟩).1 = ⟨["a.JPG"], 0⟩ :=
  (scan_on_empty_replaces_queue_and_cursor_zero
      ⟨.accessOk, .enoentMkdirOk, true⟩ ["a.JPG", "b.txt", "sub"] ⟨[], 0⟩
      Reachable.init rfl (by decide)).trans (by decide)

theorem load_error_preserves_queue_and_cursor_witness :
    loadImageFiles ⟨.accessOtherError "EACCES", .accessOk, true⟩ ["a.jpg"]
      ⟨["old.png"], 0⟩ = (⟨["old.png"], 0⟩, true) :=
  load_error_preserves_queue_and_cursor _ _ _ (by decide)

theorem read_failure_aborts_attempt_witness :
    postImageToFediverse "a.jpg" ⟨false, some (.objWithId "42"), true, true⟩
        ⟨["a.jpg"], []⟩ =
      ⟨false, false, none, false, false, false, ⟨["a.jpg"], []⟩⟩ :=
  read_failure_aborts_attempt _ _ _ rfl

theorem archive_iff_both_api_calls_succeed_witness :
    ((postImageToFediverse "a.jpg" ⟨true, some (.objWithId "42"), true, true⟩
        ⟨["a.jpg"], []⟩).moveAttempted = true ↔
      (postImageToFediverse "a.jpg" ⟨true, some (.objWithId "42"), true, true⟩
        ⟨["a.jpg"], []⟩).statusIssued = true ∧ true = true) ∧
    ((postImageToFediverse "a.jpg" ⟨true, some (.objWithId "42"), true, true⟩
        ⟨["a.jpg"], []⟩).moveAttempted = true →
      (postImageToFediverse "a.jpg" ⟨true, some (.objWithId "42"), true, true⟩
        ⟨["a.jpg"], []⟩).moved = true ∧
      "a.jpg" ∈ (postImageToFediverse "a.jpg"
        ⟨true, some (.objWithId "42"), true, true⟩ ⟨["a.jpg"], []⟩).fs.archive ∧
      "a.jpg" ∉ (postImageToFediverse "a.jpg"
        ⟨true, some (.objWithId "42"), true, true⟩ ⟨["a.jpg"], []⟩).fs.source) :=
  archive_iff_both_api_calls_succeed "a.jpg" _ _ rfl (by decide)

theorem missing_media_id_proceeds_witness :
    (postImageToFediverse "a.jpg" ⟨true, some .objNoId, true, true⟩
        ⟨["a.jpg"], []⟩).statusIssued = true ∧
    (postImageToFediverse "a.jpg" ⟨true, some .objNoId, true, true⟩
        ⟨["a.jpg"], []⟩).statusMediaId = some none ∧
    ((postImageToFediverse "a.jpg" ⟨true, some .objNoId, true, true⟩
        ⟨["a.jpg"], []⟩).moveAttempted = true ↔ true = true) :=
  (missing_media_id_proceeds "a.jpg" ⟨true, some .objNoId, true, true⟩
    ⟨["a.jpg"], []⟩ rfl).2 rfl

theorem move_failure_keeps_file_and_consumes_entry_witness :
    ∃ s' ev,
      postNextImage ⟨⟨.accessOk, .accessOk, true⟩,
          ⟨true, some (.objWithId "42"), true, false⟩⟩
        ⟨["a.jpg"], 0⟩ ⟨["a.jpg"], []⟩ = .ok (s', ⟨["a.jpg"], []⟩, ev) ∧
      ev.loggedMoveError = true ∧ ev.moved = false ∧
      s'.imageFiles = ["a.jpg"].eraseIdx 0 ∧
      ∀ nm, ev.selected = some nm →
        isImageFile nm = true ∧ nm ∈ ["a.jpg"] :=
  move_failure_keeps_file_and_consumes_entry _ _ _ reachable_singleton_jpg
    (by decide) rfl (RespData.objWithId "42") (by decide) rfl rfl rfl

end Zankobot
